import Mathlib

/-!
A shallow embedding of the core request-construction, error-classification and
model-suggestion logic of the `straico_api.client` module (`StraicoClient`),
together with proofs about it.

Modelling conventions:
* Python strings are modelled as Lean `String` / `List Char`; `str.lower()` is
  modelled by `Char.toLower` (faithful on the ASCII identifiers the client
  handles).
* The floating point similarity scores produced by `difflib` are modelled as
  exact fractions of naturals (`Score`), compared by cross multiplication.
* Python `dict`s used by the matcher (`j2len`) are modelled as total functions
  `Nat → Nat` defaulting to `0`, which is exactly the behaviour of
  `dict.get(key, 0)`.
* The HTTP transport and the catalog fetch are collaborators: a `chat` call is
  modelled as a function of the transport's outcome and of the decoded catalog
  response, and the number of network calls it makes is recorded explicitly.
-/

namespace Straico

/-! ### Basic string machinery (Python `in`, `str.lower`, `str` comparison) -/

/-- Character at index `n` (all uses in the matcher are in bounds). -/
def nth (s : List Char) (n : Nat) : Char :=
  s.getD n (Char.ofNat 0)

/-- Python list/str prefix test (`a == b[:len(a)]`). -/
def startsWithCh : List Char → List Char → Bool
  | [], _ => true
  | _ :: _, [] => false
  | a :: as, b :: bs => a == b && startsWithCh as bs

/-- Python `n in h` on strings: `n` occurs as a contiguous substring of `h`.
The empty string is a substring of everything, as in Python. -/
def isSub (n : List Char) : List Char → Bool
  | [] => n.isEmpty
  | c :: t => startsWithCh n (c :: t) || isSub n t

/-- `isSub` lifted to `String`. -/
def isSubS (n h : String) : Bool :=
  isSub n.data h.data

/-- Python `str.lower()` (ASCII). -/
def lowerS (s : String) : String :=
  ⟨s.data.map Char.toLower⟩

/-- Python `<` on strings: lexicographic comparison of code points. -/
def pyStrLt : List Char → List Char → Bool
  | [], [] => false
  | [], _ :: _ => true
  | _ :: _, [] => false
  | c :: cs, d :: ds => decide (c < d) || (c == d && pyStrLt cs ds)

/-! ### Similarity scores

`difflib` scores are floats of the form `2*M/T` (plus the cutoff constant
`0.3`); we model them as exact fractions with a positive denominator and
compare them by cross multiplication. -/

structure Score where
  num : Nat
  den : Nat
  dpos : 0 < den

def Score.lt (x y : Score) : Prop := x.num * y.den < y.num * x.den

def Score.le (x y : Score) : Prop := x.num * y.den ≤ y.num * x.den

def Score.eqv (x y : Score) : Prop := x.num * y.den = y.num * x.den

instance (x y : Score) : Decidable (x.lt y) :=
  inferInstanceAs (Decidable (_ < _))

instance (x y : Score) : Decidable (x.le y) :=
  inferInstanceAs (Decidable (_ ≤ _))

instance (x y : Score) : Decidable (x.eqv y) :=
  inferInstanceAs (Decidable (_ = _))

/-- `difflib._calculate_ratio`: `2.0*matches/length` when `length` is nonzero,
`1.0` otherwise. -/
def calcRatioVal (m len : Nat) : Score :=
  if h : 0 < len then ⟨2 * m, len, h⟩ else ⟨1, 1, Nat.one_pos⟩

/-- The `get_close_matches` cutoff used by the client, `0.3`. -/
def cutoffScore : Score := ⟨3, 10, by decide⟩

/-! ### `difflib.SequenceMatcher` (with `isjunk = None`)

`a` is the candidate identifier (`set_seq1`), `b` is the query (`set_seq2`).
-/

/-- Ascending positions of character `c` in `b` (the `b2j` index lists). -/
def positionsOf (b : List Char) (c : Char) : List Nat :=
  (List.range b.length).filter (fun j => nth b j == c)

/-- `b2j` with the `autojunk` heuristic: for `len(b) >= 200`, characters
occurring more than `len(b) // 100 + 1` times are dropped from the index. -/
def b2j (b : List Char) (c : Char) : List Nat :=
  if b.length ≥ 200 ∧ b.count c > b.length / 100 + 1 then []
  else positionsOf b c

/-- Inner loop of `find_longest_match`: walk the ascending index list of
`a[i]` in `b`, maintaining the previous row `old : j → run length ending at
(i-1, j)`, the row being built `new`, and the best `(besti, bestj, bestsize)`
so far (`j < blo` is `continue`, `j ≥ bhi` is `break`). -/
def flmInner (blo bhi i : Nat) :
    List Nat → (Nat → Nat) → (Nat → Nat) → Nat × Nat × Nat →
      (Nat → Nat) × (Nat × Nat × Nat)
  | [], _, new, best => (new, best)
  | j :: js, old, new, best =>
    if j < blo then flmInner blo bhi i js old new best
    else if bhi ≤ j then (new, best)
    else
      let k := (if j = 0 then 0 else old (j - 1)) + 1
      let new' := fun x => if x = j then k else new x
      let best' := if best.2.2 < k then (i + 1 - k, j + 1 - k, k) else best
      flmInner blo bhi i js old new' best'

/-- Outer loop of `find_longest_match` over `i ∈ [alo, ahi)`. -/
def flmOuter (a b : List Char) (blo bhi : Nat) :
    List Nat → (Nat → Nat) → Nat × Nat × Nat → Nat × Nat × Nat
  | [], _, best => best
  | i :: is, j2len, best =>
    let step := flmInner blo bhi i (b2j b (nth a i)) j2len (fun _ => 0) best
    flmOuter a b blo bhi is step.1 step.2

/-- First extension loop of `find_longest_match` (no junk, so the junk-guarded
loops never run): grow the match downwards while the adjacent characters agree.
The fuel bounds the number of iterations (each one decrements `besti`). -/
def extendLower (a b : List Char) (alo blo : Nat) :
    Nat → Nat × Nat × Nat → Nat × Nat × Nat
  | 0, best => best
  | fuel + 1, (bi, bj, bs) =>
    if alo < bi ∧ blo < bj ∧ nth a (bi - 1) == nth b (bj - 1) then
      extendLower a b alo blo fuel (bi - 1, bj - 1, bs + 1)
    else (bi, bj, bs)

/-- Second extension loop: grow the match upwards. -/
def extendUpper (a b : List Char) (ahi bhi : Nat) :
    Nat → Nat × Nat × Nat → Nat × Nat × Nat
  | 0, best => best
  | fuel + 1, (bi, bj, bs) =>
    if bi + bs < ahi ∧ bj + bs < bhi ∧ nth a (bi + bs) == nth b (bj + bs) then
      extendUpper a b ahi bhi fuel (bi, bj, bs + 1)
    else (bi, bj, bs)

/-- `SequenceMatcher.find_longest_match` on the window
`a[alo:ahi]`, `b[blo:bhi]`, returning `(besti, bestj, bestsize)`. -/
def findLongestMatch (a b : List Char) (alo ahi blo bhi : Nat) :
    Nat × Nat × Nat :=
  let best := flmOuter a b blo bhi (List.range' alo (ahi - alo))
    (fun _ => 0) (alo, blo, 0)
  let best' := extendLower a b alo blo best.1 best
  extendUpper a b ahi bhi ahi best'

/-- Total size of the matching blocks found by the divide-and-conquer of
`get_matching_blocks` (the only quantity `ratio` needs; merging adjacent
blocks preserves it).  The fuel dominates `(ahi-alo)+(bhi-blo)`, which
strictly decreases at each recursive call. -/
def matchTotal (a b : List Char) : Nat → Nat → Nat → Nat → Nat → Nat
  | 0, _, _, _, _ => 0
  | fuel + 1, alo, ahi, blo, bhi =>
    let m := findLongestMatch a b alo ahi blo bhi
    let i := m.1
    let j := m.2.1
    let k := m.2.2
    if k = 0 then 0
    else
      k + (if alo < i ∧ blo < j then matchTotal a b fuel alo i blo j else 0)
        + (if i + k < ahi ∧ j + k < bhi then
            matchTotal a b fuel (i + k) ahi (j + k) bhi else 0)

/-- `SequenceMatcher.ratio()` for `a` (candidate) against `b` (query). -/
def ratioVal (a b : List Char) : Score :=
  calcRatioVal
    (matchTotal a b (a.length + b.length + 1) 0 a.length 0 b.length)
    (a.length + b.length)

/-- `SequenceMatcher.quick_ratio()`: twice the multiset intersection of the
characters over the total length. -/
def quickRatioVal (a b : List Char) : Score :=
  calcRatioVal ((a.dedup.map (fun c => min (a.count c) (b.count c))).sum)
    (a.length + b.length)

/-- `SequenceMatcher.real_quick_ratio()`. -/
def realQuickRatioVal (a b : List Char) : Score :=
  calcRatioVal (min a.length b.length) (a.length + b.length)

/-! ### `difflib.get_close_matches` -/

/-- The order used by `heapq.nlargest` on the `(ratio, candidate)` pairs
built by `get_close_matches`: Python tuple comparison, i.e. by ratio first
and then lexicographically by the candidate string.  `scoreGe x y` says `x`
need not come after `y` in the descending output. -/
def scoreGe (x y : Score × String) : Prop :=
  y.1.lt x.1 ∨ (x.1.eqv y.1 ∧ pyStrLt x.2.data y.2.data = false)

instance : DecidableRel scoreGe := fun _ _ =>
  inferInstanceAs (Decidable (_ ∨ _))

/-- The scored candidate list of `get_close_matches`: every possibility whose
three ratios all reach the cutoff, paired with its `ratio`. -/
def closeScored (word : String) (possibilities : List String) (cutoff : Score) :
    List (Score × String) :=
  possibilities.filterMap (fun x =>
    if cutoff.le (realQuickRatioVal x.data word.data) ∧
        cutoff.le (quickRatioVal x.data word.data) ∧
        cutoff.le (ratioVal x.data word.data)
    then some (ratioVal x.data word.data, x) else none)

/-- `difflib.get_close_matches(word, possibilities, n, cutoff)`:
`heapq.nlargest(n, scored)` (a stable descending sort truncated to `n`)
with the scores stripped. -/
def getCloseMatches (word : String) (possibilities : List String) (n : Nat)
    (cutoff : Score) : List String :=
  ((List.insertionSort scoreGe (closeScored word possibilities cutoff)).take
    n).map (fun p => p.2)

/-! ### The model catalog and the suggestion engine
(`StraicoClient.find_similar_models`) -/

/-- One entry of the remote catalog's chat-model list, keeping the two fields
the suggestion engine reads (`m.get("model", "")` and `m.get("name", "")`;
defaulting of missing fields is folded into the fields themselves). -/
structure ModelEntry where
  model : String
  name : String
deriving DecidableEq, Repr

/-- The decoded result of `get_models()`: a success flag and the
`data.chat` list. -/
structure ModelsResponse where
  success : Bool
  chat : List ModelEntry
deriving DecidableEq, Repr

/-- First merge loop of `find_similar_models`: for each close-match
identifier, append the first catalog entry carrying it, unless the identifier
was already seen. -/
def mergeClose (ml : List ModelEntry) :
    List String → List ModelEntry → List String → List ModelEntry × List String
  | [], res, seen => (res, seen)
  | mid :: rest, res, seen =>
    if mid ∈ seen then mergeClose ml rest res seen
    else
      match ml.find? (fun e => e.model == mid) with
      | some e => mergeClose ml rest (res ++ [e]) (mid :: seen)
      | none => mergeClose ml rest res seen

/-- Second merge loop: append keyword matches that are not yet seen while
fewer than `maxS` results have been collected. -/
def mergeKeyword (maxS : Nat) :
    List ModelEntry → List ModelEntry → List String →
      List ModelEntry × List String
  | [], res, seen => (res, seen)
  | e :: rest, res, seen =>
    if e.model ∉ seen ∧ res.length < maxS then
      mergeKeyword maxS rest (res ++ [e]) (e.model :: seen)
    else mergeKeyword maxS rest res seen

/-- The catalog entries whose identifier or display name contains the search
term as a case-insensitive substring, in catalog order. -/
def keywordMatches (ml : List ModelEntry) (model_name : String) :
    List ModelEntry :=
  ml.filter (fun m =>
    isSubS (lowerS model_name) (lowerS m.model) ||
      isSubS (lowerS model_name) (lowerS m.name))

/-- `StraicoClient.find_similar_models(model_name, max_suggestions)` given the
decoded `get_models()` response. -/
def findSimilarModels (resp : ModelsResponse) (model_name : String)
    (max_suggestions : Nat) : List ModelEntry :=
  if resp.success = false then []
  else if resp.chat.isEmpty then []
  else
    let ml := resp.chat
    let close := getCloseMatches model_name (ml.map (fun m => m.model))
      max_suggestions cutoffScore
    let kw := keywordMatches ml model_name
    let step1 := mergeClose ml close [] []
    let step2 := mergeKeyword max_suggestions kw step1.1 step1.2
    step2.1.take max_suggestions

/-! ### The request payload and its builder (`StraicoClient.chat`,
payload-shaping section) -/

/-- The two wire shapes of the `smart_llm_selector` field: the v1 object and
the v0 bare pricing-method string. -/
inductive Selector where
  | obj (quantity : Int) (pricing_method : String)
  | strv (pricing_method : String)
deriving DecidableEq, Repr

/-- The JSON payload sent to `prompt/completion`.  The three selection fields
are `Option`s; a field is present on the wire iff it is `some`. -/
structure Payload where
  message : String
  replace_failed_models : Bool
  models : Option (List String)
  model : Option String
  smart_llm_selector : Option Selector
deriving DecidableEq, Repr

/-- Python truthiness of the optional `models` argument. -/
def optListTruthy : Option (List String) → Bool
  | none => false
  | some l => !l.isEmpty

/-- Python truthiness of the optional `model` argument. -/
def optStrTruthy : Option String → Bool
  | none => false
  | some s => !s.isEmpty

/-- Python truthiness of `quantity and quantity > 1`. -/
def quantityTruthyGt1 : Option Int → Bool
  | none => false
  | some q => !(q == 0) && decide (q > 1)

/-- The payload construction of `StraicoClient.chat` (the branch chain
`models` > `model` > `smart_llm_selector`). -/
def buildPayload (api_version message pricing_method : String)
    (model : Option String) (models : Option (List String))
    (quantity : Option Int) : Payload :=
  let p0 : Payload := ⟨message, true, none, none, none⟩
  if optListTruthy models && decide ((models.getD []).length > 0) then
    { p0 with models := some (models.getD []) }
  else if optStrTruthy model then
    if api_version == "v1" then { p0 with models := some [model.getD ""] }
    else { p0 with model := some (model.getD "") }
  else if api_version == "v1" && quantityTruthyGt1 quantity then
    { p0 with smart_llm_selector := some (Selector.obj (quantity.getD 0) pricing_method) }
  else if api_version == "v1" then
    { p0 with smart_llm_selector := some (.obj 1 pricing_method) }
  else
    { p0 with smart_llm_selector := some (.strv pricing_method) }

/-! ### The chat orchestrator and response classifier -/

/-- Outcome of the single `requests.post` exchange, as seen by `chat`:

* `ok body` — 2xx, with `response.json()` succeeding; the decoded body is
  passed through verbatim (abstracted here as its text).
* `httpError status errorField msg` — a `RequestException` was raised after
  the local `response` variable was bound (e.g. by `raise_for_status`).
  `errorField` is the string under the `"error"` key of `response.json()` if
  re-decoding it in the handler succeeds (a missing key decodes to `""`), and
  `none` if that decoding raises.  `msg` is `str(e)`.
* `connError msg` — `requests.post` itself raised (connection error,
  timeout), so no `response` was ever bound. -/
inductive TransportOutcome where
  | ok (body : String)
  | httpError (status : Nat) (errorField : Option String) (msg : String)
  | connError (msg : String)
deriving DecidableEq, Repr

/-- A Python exception escaping `chat`. -/
inductive PyExn where
  | unboundLocal (name : String)
deriving DecidableEq, Repr

/-- The dictionary returned by `chat`. -/
inductive ChatResult where
  | success (body : String)
  | failure (error : String)
  | modelNotFound (error : String) (requested_model : String)
      (suggestions : List ModelEntry)
deriving DecidableEq, Repr

instance : DecidableEq (Except PyExn ChatResult) := fun
  | .ok a, .ok b =>
    if h : a = b then isTrue (by rw [h]) else isFalse (by simp [h])
  | .ok _, .error _ => isFalse (by simp)
  | .error _, .ok _ => isFalse (by simp)
  | .error a, .error b =>
    if h : a = b then isTrue (by rw [h]) else isFalse (by simp [h])

/-- Result of one `chat` call together with its observable network activity
and the payload it handed to the transport (if any). -/
structure ChatOutcome where
  result : Except PyExn ChatResult
  postCalls : Nat
  catalogFetches : Nat
  sentPayload : Option Payload
deriving DecidableEq

/-- The model-not-found marker the classifier greps for. -/
def marker : String := "Model not found"

/-- The classifier's attribution of `requested_model` (lines 218-234 of
`client.py`), returning `none` when the Python variable stays `None`. -/
def attributedModel (model : Option String) (models : Option (List String))
    (api_error : String) : Option String :=
  if optStrTruthy model then model
  else
    match models with
    | some ms =>
      if ms.length = 1 then some (ms.headD "")
      else if 1 < ms.length then
        match ms.find? (fun m => isSubS m api_error) with
        | some m => if m = "" then some (ms.headD "") else some m
        | none => some (ms.headD "")
      else none
    | none => none

/-- The part of `chat` after quantity validation: build the payload, perform
the POST, and classify the outcome. -/
def chatSend (api_version : String) (transport : TransportOutcome)
    (catalog : ModelsResponse) (message pricing_method : String)
    (model : Option String) (models : Option (List String))
    (quantity : Option Int) : ChatOutcome :=
  let payload := buildPayload api_version message pricing_method model models
    quantity
  match transport with
  | .ok body => ⟨.ok (.success body), 1, 0, some payload⟩
  | .connError _ =>
    -- the handler evaluates `response is not None` with `response` unbound
    ⟨.error (.unboundLocal "response"), 1, 0, some payload⟩
  | .httpError status errorField msg =>
    if status = 422 then
      match errorField with
      | none => ⟨.ok (.failure msg), 1, 0, some payload⟩
      | some api_error =>
        if isSubS marker api_error then
          match attributedModel model models api_error with
          | some rm =>
            if rm = "" then ⟨.ok (.failure msg), 1, 0, some payload⟩
            else
              ⟨.ok (.modelNotFound api_error rm (findSimilarModels catalog rm 5)),
                1, 1, some payload⟩
          | none => ⟨.ok (.failure msg), 1, 0, some payload⟩
        else ⟨.ok (.failure msg), 1, 0, some payload⟩
    else ⟨.ok (.failure msg), 1, 0, some payload⟩

/-- `StraicoClient.chat`: quantity validation, then `chatSend`. -/
def chat (api_version : String) (transport : TransportOutcome)
    (catalog : ModelsResponse) (message : String)
    (pricing_method : String := "balance") (model : Option String := none)
    (models : Option (List String) := none) (quantity : Option Int := none) :
    ChatOutcome :=
  match quantity with
  | some q =>
    if q < 1 ∨ 4 < q then
      ⟨.ok (.failure ("Quantity must be between 1 and 4 (got " ++
        toString q ++ ")")), 0, 0, none⟩
    else chatSend api_version transport catalog message pricing_method model
      models quantity
  | none => chatSend api_version transport catalog message pricing_method
      model models quantity

/-- Python truthiness of the rejection test on `quantity`. -/
def quantityRejected : Option Int → Bool
  | none => false
  | some q => decide (q < 1) || decide (4 < q)

/-! ## Helper lemmas -/

theorem startsWithCh_append_self : ∀ n r : List Char,
    startsWithCh n (n ++ r) = true
  | [], _ => rfl
  | a :: as, r => by
    simp only [List.cons_append, startsWithCh, beq_self_eq_true, Bool.true_and]
    exact startsWithCh_append_self as r

theorem isSub_of_startsWithCh {n h : List Char}
    (hs : startsWithCh n h = true) : isSub n h = true := by
  cases h with
  | nil =>
    cases n with
    | nil => rfl
    | cons a as => simp [startsWithCh] at hs
  | cons c t => simp [isSub, hs]

theorem isSub_append_self (n r : List Char) : isSub n (n ++ r) = true :=
  isSub_of_startsWithCh (startsWithCh_append_self n r)

theorem pyStrLt_asymm : ∀ a b : List Char,
    pyStrLt a b = true → pyStrLt b a = false
  | [], [], h => by simp [pyStrLt] at h
  | [], _ :: _, _ => rfl
  | _ :: _, [], h => by simp [pyStrLt] at h
  | c :: cs, d :: ds, h => by
    simp only [pyStrLt, Bool.or_eq_true, decide_eq_true_eq, Bool.and_eq_true,
      beq_iff_eq] at h
    rcases h with h | ⟨rfl, h⟩
    · simp [pyStrLt, not_lt_of_lt h, ne_of_gt h]
    · simp [pyStrLt, pyStrLt_asymm cs ds h]

theorem pyStrLt_trichotomy : ∀ a b : List Char,
    pyStrLt a b = true ∨ a = b ∨ pyStrLt b a = true
  | [], [] => Or.inr (Or.inl rfl)
  | [], _ :: _ => Or.inl rfl
  | _ :: _, [] => Or.inr (Or.inr rfl)
  | c :: cs, d :: ds => by
    rcases lt_trichotomy c d with h | rfl | h
    · exact Or.inl (by simp [pyStrLt, h])
    · rcases pyStrLt_trichotomy cs ds with h | rfl | h
      · exact Or.inl (by simp [pyStrLt, h])
      · exact Or.inr (Or.inl rfl)
      · exact Or.inr (Or.inr (by simp [pyStrLt, h]))
    · exact Or.inr (Or.inr (by simp [pyStrLt, h]))

theorem pyStrLt_trans : ∀ a b c : List Char,
    pyStrLt a b = true → pyStrLt b c = true → pyStrLt a c = true
  | [], _ :: _, _ :: _, _, _ => rfl
  | [], _ :: _, [], _, h2 => by simp [pyStrLt] at h2
  | [], [], _, h1, _ => by simp [pyStrLt] at h1
  | _ :: _, [], _, h1, _ => by simp [pyStrLt] at h1
  | _ :: _, _ :: _, [], _, h2 => by simp [pyStrLt] at h2
  | x :: xs, y :: ys, z :: zs, h1, h2 => by
    simp only [pyStrLt, Bool.or_eq_true, decide_eq_true_eq, Bool.and_eq_true,
      beq_iff_eq] at h1 h2 ⊢
    rcases h1 with h1 | ⟨rfl, h1⟩
    · rcases h2 with h2 | ⟨rfl, _⟩
      · exact Or.inl (lt_trans h1 h2)
      · exact Or.inl h1
    · rcases h2 with h2 | ⟨rfl, h2⟩
      · exact Or.inl h2
      · exact Or.inr ⟨rfl, pyStrLt_trans xs ys zs h1 h2⟩

theorem pyStrLt_not_of_not_not {a b c : List Char}
    (hab : pyStrLt a b = false) (hbc : pyStrLt b c = false) :
    pyStrLt a c = false := by
  rcases pyStrLt_trichotomy a b with h | rfl | h
  · rw [h] at hab; exact absurd hab (by simp)
  · exact hbc
  · rcases pyStrLt_trichotomy b c with h2 | rfl | h2
    · rw [h2] at hbc; exact absurd hbc (by simp)
    · exact hab
    · by_contra hac
      rw [Bool.not_eq_false] at hac
      have := pyStrLt_trans _ _ _ h2 h
      exact absurd (pyStrLt_asymm _ _ this) (by simp [hac])

theorem Score.lt_trans_mid {x y z : Score}
    (h1 : y.lt x) (h2 : z.lt y) : z.lt x := by
  unfold Score.lt at h1 h2 ⊢
  have H : y.den * (z.num * x.den) < y.den * (x.num * z.den) := by
    calc y.den * (z.num * x.den) = z.num * y.den * x.den := by ring
    _ < y.num * z.den * x.den := (Nat.mul_lt_mul_right x.dpos).mpr h2
    _ = y.num * x.den * z.den := by ring
    _ < x.num * y.den * z.den := (Nat.mul_lt_mul_right z.dpos).mpr h1
    _ = y.den * (x.num * z.den) := by ring
  exact Nat.lt_of_mul_lt_mul_left H

theorem Score.lt_of_lt_of_eqv {x y z : Score}
    (h1 : y.lt x) (h2 : y.eqv z) : z.lt x := by
  unfold Score.lt at h1 ⊢
  unfold Score.eqv at h2
  have H : y.den * (z.num * x.den) < y.den * (x.num * z.den) := by
    calc y.den * (z.num * x.den) = z.num * y.den * x.den := by ring
    _ = y.num * z.den * x.den := by rw [← h2]
    _ = y.num * x.den * z.den := by ring
    _ < x.num * y.den * z.den := (Nat.mul_lt_mul_right z.dpos).mpr h1
    _ = y.den * (x.num * z.den) := by ring
  exact Nat.lt_of_mul_lt_mul_left H

theorem Score.lt_of_eqv_of_lt {x y z : Score}
    (h1 : x.eqv y) (h2 : z.lt y) : z.lt x := by
  unfold Score.lt at h2 ⊢
  unfold Score.eqv at h1
  have H : y.den * (z.num * x.den) < y.den * (x.num * z.den) := by
    calc y.den * (z.num * x.den) = z.num * y.den * x.den := by ring
    _ < y.num * z.den * x.den := (Nat.mul_lt_mul_right x.dpos).mpr h2
    _ = y.num * x.den * z.den := by ring
    _ = x.num * y.den * z.den := by rw [show y.num * x.den = x.num * y.den from by omega]
    _ = y.den * (x.num * z.den) := by ring
  exact Nat.lt_of_mul_lt_mul_left H

theorem Score.eqv_trans_mid {x y z : Score}
    (h1 : x.eqv y) (h2 : y.eqv z) : x.eqv z := by
  unfold Score.eqv at h1 h2 ⊢
  have : y.den * (x.num * z.den) = y.den * (z.num * x.den) := by
    calc y.den * (x.num * z.den) = x.num * y.den * z.den := by ring
    _ = y.num * x.den * z.den := by rw [h1]
    _ = y.num * z.den * x.den := by ring
    _ = z.num * y.den * x.den := by rw [h2]
    _ = y.den * (z.num * x.den) := by ring
  exact Nat.eq_of_mul_eq_mul_left y.dpos this

theorem Score.eqv_symm {x y : Score} (h : x.eqv y) : y.eqv x := by
  unfold Score.eqv at h ⊢
  omega

theorem Score.lt_or_eqv_or_gt (x y : Score) : x.lt y ∨ x.eqv y ∨ y.lt x := by
  unfold Score.lt Score.eqv
  omega

theorem Score.not_lt_self_of_eqv {x y : Score} (h : x.eqv y) : ¬ x.lt y := by
  unfold Score.eqv at h
  unfold Score.lt
  omega

theorem pyStrLt_irrefl (a : List Char) : pyStrLt a a = false := by
  cases h : pyStrLt a a
  · rfl
  · exact absurd (pyStrLt_asymm a a h) (by simp [h])

instance : IsTotal (Score × String) scoreGe := by
  constructor
  intro x y
  rcases Score.lt_or_eqv_or_gt x.1 y.1 with h | h | h
  · exact Or.inr (Or.inl h)
  · rcases pyStrLt_trichotomy x.2.data y.2.data with hs | hs | hs
    · exact Or.inr (Or.inr ⟨Score.eqv_symm h, pyStrLt_asymm _ _ hs⟩)
    · exact Or.inl (Or.inr ⟨h, by rw [hs]; exact pyStrLt_irrefl _⟩)
    · exact Or.inl (Or.inr ⟨h, pyStrLt_asymm _ _ hs⟩)
  · exact Or.inl (Or.inl h)

theorem mergeKeyword_shape (maxS : Nat) :
    ∀ (kw res : List ModelEntry) (seen : List String),
      ∃ r2, (mergeKeyword maxS kw res seen).1 = res ++ r2 ∧ r2.Sublist kw
  | [], res, _ => ⟨[], by simp [mergeKeyword]⟩
  | e :: rest, res, seen => by
    rw [mergeKeyword]
    split
    · obtain ⟨r2, h1, h2⟩ := mergeKeyword_shape maxS rest (res ++ [e])
        (e.model :: seen)
      exact ⟨e :: r2, by simp [h1], List.Sublist.cons₂ e h2⟩
    · obtain ⟨r2, h1, h2⟩ := mergeKeyword_shape maxS rest res seen
      exact ⟨r2, h1, List.Sublist.cons e h2⟩

theorem mergeKeyword_len_le (maxS : Nat) (kw res : List ModelEntry)
    (seen : List String) :
    res.length ≤ (mergeKeyword maxS kw res seen).1.length := by
  obtain ⟨r2, h1, _⟩ := mergeKeyword_shape maxS kw res seen
  simp [h1]

theorem mergeKeyword_seen_mono (maxS : Nat) :
    ∀ (kw res : List ModelEntry) (seen : List String),
      seen ⊆ (mergeKeyword maxS kw res seen).2
  | [], _, _ => by simp [mergeKeyword]
  | e :: rest, res, seen => by
    rw [mergeKeyword]
    split
    · exact fun s hs =>
        mergeKeyword_seen_mono maxS rest (res ++ [e]) (e.model :: seen)
          (List.mem_cons_of_mem _ hs)
    · exact mergeKeyword_seen_mono maxS rest res seen

theorem mergeKeyword_seen_in_res (maxS : Nat) :
    ∀ (kw res : List ModelEntry) (seen : List String),
      (∀ s ∈ seen, s ∈ res.map ModelEntry.model) →
      ∀ s ∈ (mergeKeyword maxS kw res seen).2,
        s ∈ (mergeKeyword maxS kw res seen).1.map ModelEntry.model
  | [], res, seen, hpre => by simpa [mergeKeyword] using hpre
  | e :: rest, res, seen, hpre => by
    rw [mergeKeyword]
    split
    · refine mergeKeyword_seen_in_res maxS rest (res ++ [e])
        (e.model :: seen) ?_
      intro s hs
      rcases List.mem_cons.mp hs with rfl | hs
      · simp
      · simp only [List.map_append]
        exact List.mem_append_left _ (hpre s hs)
    · exact mergeKeyword_seen_in_res maxS rest res seen hpre

theorem mergeKeyword_nodup (maxS : Nat) :
    ∀ (kw res : List ModelEntry) (seen : List String),
      (res.map ModelEntry.model).Nodup →
      (∀ id ∈ res.map ModelEntry.model, id ∈ seen) →
      ((mergeKeyword maxS kw res seen).1.map ModelEntry.model).Nodup ∧
        ∀ id ∈ (mergeKeyword maxS kw res seen).1.map ModelEntry.model,
          id ∈ (mergeKeyword maxS kw res seen).2
  | [], res, seen, hnd, hsub => by
    rw [mergeKeyword]
    exact ⟨hnd, hsub⟩
  | e :: rest, res, seen, hnd, hsub => by
    rw [mergeKeyword]
    split
    · next hcond =>
      refine mergeKeyword_nodup maxS rest (res ++ [e]) (e.model :: seen) ?_ ?_
      · have hem : e.model ∉ res.map ModelEntry.model := fun hin =>
          hcond.1 (hsub _ hin)
        simp [List.nodup_append, hnd, hem]
      · intro id hid
        simp only [List.map_append, List.map_cons, List.map_nil,
          List.mem_append] at hid
        rcases hid with hid | hid
        · exact List.mem_cons_of_mem _ (hsub _ hid)
        · simp only [List.mem_singleton] at hid
          exact hid ▸ List.mem_cons_self _ _
    · exact mergeKeyword_nodup maxS rest res seen hnd hsub

theorem mergeKeyword_complete (maxS : Nat) :
    ∀ (kw res : List ModelEntry) (seen : List String),
      (mergeKeyword maxS kw res seen).1.length < maxS →
      ∀ e ∈ kw, e.model ∈ (mergeKeyword maxS kw res seen).2
  | [], _, _, _ => by simp
  | e :: rest, res, seen, hlen => by
    intro x hx
    rw [mergeKeyword] at hlen ⊢
    by_cases hcond : e.model ∉ seen ∧ res.length < maxS
    · rw [if_pos hcond] at hlen ⊢
      rcases List.mem_cons.mp hx with rfl | hx
      · exact mergeKeyword_seen_mono maxS rest (res ++ [x]) (x.model :: seen)
          (List.mem_cons_self _ _)
      · exact mergeKeyword_complete maxS rest (res ++ [e]) (e.model :: seen)
          hlen x hx
    · rw [if_neg hcond] at hlen ⊢
      rcases List.mem_cons.mp hx with rfl | hx
      · rcases Decidable.not_and_iff_or_not.mp hcond with hc | hc
        · exact mergeKeyword_seen_mono maxS rest res seen
            (Decidable.not_not.mp hc)
        · have := mergeKeyword_len_le maxS rest res seen
          omega
      · exact mergeKeyword_complete maxS rest res seen hlen x hx

theorem mergeClose_shape (ml : List ModelEntry) :
    ∀ (close : List String) (res : List ModelEntry) (seen : List String),
      ∃ t, (mergeClose ml close res seen).1 = res ++ t ∧
        (t.map ModelEntry.model).Sublist close ∧
        ∀ e ∈ t, ml.find? (fun x => x.model == e.model) = some e
  | [], res, _ => ⟨[], by simp [mergeClose]⟩
  | mid :: rest, res, seen => by
    rw [mergeClose]
    split
    · obtain ⟨t, h1, h2, h3⟩ := mergeClose_shape ml rest res seen
      exact ⟨t, h1, List.Sublist.cons mid h2, h3⟩
    · next hmid =>
      split
      · next e hfind =>
        obtain ⟨t, h1, h2, h3⟩ := mergeClose_shape ml rest (res ++ [e])
          (mid :: seen)
        have hem : e.model = mid := by
          have := List.find?_some hfind
          simpa using this
        refine ⟨e :: t, by simp [h1], ?_, ?_⟩
        · simpa [hem] using List.Sublist.cons₂ mid h2
        · intro x hx
          rcases List.mem_cons.mp hx with rfl | hx
          · rw [hem]; exact hfind
          · exact h3 x hx
      · obtain ⟨t, h1, h2, h3⟩ := mergeClose_shape ml rest res seen
        exact ⟨t, h1, List.Sublist.cons mid h2, h3⟩

theorem mergeClose_seen_mono (ml : List ModelEntry) :
    ∀ (close : List String) (res : List ModelEntry) (seen : List String),
      seen ⊆ (mergeClose ml close res seen).2
  | [], _, _ => by simp [mergeClose]
  | mid :: rest, res, seen => by
    rw [mergeClose]
    split
    · exact mergeClose_seen_mono ml rest res seen
    · split
      · exact fun s hs => mergeClose_seen_mono ml rest _ (mid :: seen)
          (List.mem_cons_of_mem _ hs)
      · exact mergeClose_seen_mono ml rest res seen

theorem mergeClose_seen_complete (ml : List ModelEntry) :
    ∀ (close : List String) (res : List ModelEntry) (seen : List String),
      (∀ id ∈ close, (ml.find? (fun x => x.model == id)).isSome = true) →
      ∀ id ∈ close, id ∈ (mergeClose ml close res seen).2
  | [], _, _, _ => by simp
  | mid :: rest, res, seen, hall => by
    intro id hid
    rw [mergeClose]
    split
    · next hmid =>
      rcases List.mem_cons.mp hid with rfl | hid
      · exact mergeClose_seen_mono ml rest res seen hmid
      · exact mergeClose_seen_complete ml rest res seen
          (fun i hi => hall i (List.mem_cons_of_mem _ hi)) id hid
    · next hmid =>
      split
      · rcases List.mem_cons.mp hid with rfl | hid
        · exact mergeClose_seen_mono ml rest _ (id :: seen)
            (List.mem_cons_self _ _)
        · exact mergeClose_seen_complete ml rest _ (mid :: seen)
            (fun i hi => hall i (List.mem_cons_of_mem _ hi)) id hid
      · next hfind =>
        exact absurd (hall mid (List.mem_cons_self _ _)) (by simp [hfind])

theorem mergeClose_seen_in_res (ml : List ModelEntry) :
    ∀ (close : List String) (res : List ModelEntry) (seen : List String),
      (∀ s ∈ seen, s ∈ res.map ModelEntry.model) →
      ∀ s ∈ (mergeClose ml close res seen).2,
        s ∈ (mergeClose ml close res seen).1.map ModelEntry.model
  | [], res, seen, hpre => by simpa [mergeClose] using hpre
  | mid :: rest, res, seen, hpre => by
    rw [mergeClose]
    split
    · exact mergeClose_seen_in_res ml rest res seen hpre
    · split
      · next e hfind =>
        refine mergeClose_seen_in_res ml rest (res ++ [e]) (mid :: seen) ?_
        have hem : e.model = mid := by
          have := List.find?_some hfind
          simpa using this
        intro s hs
        rcases List.mem_cons.mp hs with rfl | hs
        · simp [hem]
        · simp only [List.map_append]
          exact List.mem_append_left _ (hpre s hs)
      · exact mergeClose_seen_in_res ml rest res seen hpre

theorem mergeClose_nodup (ml : List ModelEntry) :
    ∀ (close : List String) (res : List ModelEntry) (seen : List String),
      (res.map ModelEntry.model).Nodup →
      (∀ id ∈ res.map ModelEntry.model, id ∈ seen) →
      ((mergeClose ml close res seen).1.map ModelEntry.model).Nodup ∧
        ∀ id ∈ (mergeClose ml close res seen).1.map ModelEntry.model,
          id ∈ (mergeClose ml close res seen).2
  | [], res, seen, hnd, hsub => by
    rw [mergeClose]
    exact ⟨hnd, hsub⟩
  | mid :: rest, res, seen, hnd, hsub => by
    rw [mergeClose]
    split
    · exact mergeClose_nodup ml rest res seen hnd hsub
    · next hmid =>
      split
      · next e hfind =>
        have hem : e.model = mid := by
          have := List.find?_some hfind
          simpa using this
        refine mergeClose_nodup ml rest (res ++ [e]) (mid :: seen) ?_ ?_
        · have hnm : e.model ∉ res.map ModelEntry.model := fun hin =>
            hmid (hem ▸ hsub _ hin)
          simp [List.nodup_append, hnd, hnm]
        · intro id hid
          simp only [List.map_append, List.map_cons, List.map_nil,
            List.mem_append] at hid
          rcases hid with hid | hid
          · exact List.mem_cons_of_mem _ (hsub _ hid)
          · simp only [List.mem_singleton] at hid
            subst hid
            exact hem ▸ List.mem_cons_self _ _
      · exact mergeClose_nodup ml rest res seen hnd hsub

instance : IsTrans (Score × String) scoreGe := by
  constructor
  intro x y z hxy hyz
  rcases hxy with hxy | ⟨exy, sxy⟩
  · rcases hyz with hyz | ⟨eyz, _⟩
    · exact Or.inl (Score.lt_trans_mid hxy hyz)
    · exact Or.inl (Score.lt_of_lt_of_eqv hxy eyz)
  · rcases hyz with hyz | ⟨eyz, syz⟩
    · exact Or.inl (Score.lt_of_eqv_of_lt exy hyz)
    · exact Or.inr ⟨Score.eqv_trans_mid exy eyz,
        pyStrLt_not_of_not_not sxy syz⟩

theorem mem_closeScored {word : String} {poss : List String} {cutoff : Score}
    {p : Score × String} (hp : p ∈ closeScored word poss cutoff) :
    p.2 ∈ poss ∧ cutoff.le (ratioVal p.2.data word.data) ∧
      p.1 = ratioVal p.2.data word.data := by
  unfold closeScored at hp
  rcases List.mem_filterMap.mp hp with ⟨x, hx, hfx⟩
  by_cases hc : cutoff.le (realQuickRatioVal x.data word.data) ∧
      cutoff.le (quickRatioVal x.data word.data) ∧
      cutoff.le (ratioVal x.data word.data)
  · rw [if_pos hc] at hfx
    obtain rfl := Option.some.inj hfx
    exact ⟨hx, hc.2.2, rfl⟩
  · rw [if_neg hc] at hfx
    exact absurd hfx (by simp)

theorem close_mem_poss {word : String} {poss : List String} {n : Nat}
    {cutoff : Score} : ∀ id ∈ getCloseMatches word poss n cutoff, id ∈ poss := by
  intro id hid
  unfold getCloseMatches at hid
  rcases List.mem_map.mp hid with ⟨p, hp, rfl⟩
  have hp1 : p ∈ List.insertionSort scoreGe (closeScored word poss cutoff) :=
    List.take_subset _ _ hp
  have hp2 : p ∈ closeScored word poss cutoff :=
    (List.perm_insertionSort scoreGe _).subset hp1
  exact (mem_closeScored hp2).1

theorem findInCatalog_isSome {ml : List ModelEntry} {id : String}
    (h : id ∈ ml.map ModelEntry.model) :
    (ml.find? (fun x => x.model == id)).isSome = true := by
  rcases List.mem_map.mp h with ⟨e, he, rfl⟩
  exact List.find?_isSome.mpr ⟨e, he, by simp⟩

theorem chat_eq_chatSend {api : String} {t : TransportOutcome}
    {cat : ModelsResponse} {msg pm : String} {model : Option String}
    {models : Option (List String)} {quantity : Option Int}
    (hq : quantityRejected quantity = false) :
    chat api t cat msg pm model models quantity =
      chatSend api t cat msg pm model models quantity := by
  cases quantity with
  | none => rfl
  | some q =>
    unfold chat
    dsimp only
    rw [if_neg]
    unfold quantityRejected at hq
    simp only [Bool.or_eq_false_iff, decide_eq_false_iff_not] at hq
    omega

theorem chatSend_sentPayload (api : String) (t : TransportOutcome)
    (cat : ModelsResponse) (msg pm : String) (model : Option String)
    (models : Option (List String)) (q : Option Int) :
    (chatSend api t cat msg pm model models q).sentPayload =
      some (buildPayload api msg pm model models q) := by
  unfold chatSend
  cases t with
  | ok _ => rfl
  | connError _ => rfl
  | httpError s ef m =>
    by_cases h422 : s = 422
    · simp only [if_pos h422]
      cases ef with
      | none => rfl
      | some e =>
        dsimp only
        by_cases hm : isSubS marker e = true
        · simp only [if_pos hm]
          cases hattr : attributedModel model models e with
          | none => rfl
          | some rm =>
            dsimp only
            by_cases hrm : rm = ""
            · rw [if_pos hrm]
            · rw [if_neg hrm]
        · rw [if_neg hm]
    · simp only [if_neg h422]

theorem chat_sentPayload_eq {api : String} {t : TransportOutcome}
    {cat : ModelsResponse} {msg pm : String} {model : Option String}
    {models : Option (List String)} {quantity : Option Int} {p : Payload}
    (hp : (chat api t cat msg pm model models quantity).sentPayload = some p) :
    p = buildPayload api msg pm model models quantity := by
  cases quantity with
  | none =>
    rw [show chat api t cat msg pm model models none =
        chatSend api t cat msg pm model models none from rfl,
      chatSend_sentPayload] at hp
    exact (Option.some.inj hp).symm
  | some q =>
    unfold chat at hp
    dsimp only at hp
    by_cases hv : q < 1 ∨ 4 < q
    · rw [if_pos hv] at hp
      exact absurd hp (by simp)
    · rw [if_neg hv, chatSend_sentPayload] at hp
      exact (Option.some.inj hp).symm

/-- Number of selection fields present in a payload. -/
def selCount (p : Payload) : Nat :=
  (cond p.models.isSome 1 0) + (cond p.model.isSome 1 0) +
    (cond p.smart_llm_selector.isSome 1 0)

theorem optStrTruthy_some_of_ne {m : String} (hm : m ≠ "") :
    optStrTruthy (some m) = true := by
  have hemp : m.isEmpty = false := by
    cases h : m.isEmpty with
    | false => rfl
    | true => exact absurd ((String.isEmpty_iff m).mp h) hm
  show (!m.isEmpty) = true
  rw [hemp]
  rfl

/-! ## Claim theorems -/

/-- C1: the claim states that no exception escapes `chat` and that every
failure of the HTTP exchange — including a connection error — resolves to a
structured failure value.  The code violates this: when `requests.post`
itself raises, the handler reads the never-assigned local `response` and an
`UnboundLocalError` escapes to the caller.  This theorem evaluates the
embedded code at such a failing input (first conjunct), and contrasts it
with a non-2xx failure, which, as the claim says, is returned as a
structured failure carrying the message text (second conjunct). -/
theorem C1_connection_error_escapes :
    (chat "v1" (.connError "Connection refused") ⟨false, []⟩ "hello").result =
      .error (.unboundLocal "response") ∧
    (chat "v1" (.httpError 500 none "500 Server Error") ⟨false, []⟩
      "hello").result = .ok (.failure "500 Server Error") :=
  ⟨rfl, rfl⟩

/-- C2: for every quantity outside `[1,4]`, `chat` returns a failure whose
message contains "Quantity must be between 1 and 4", performs zero network
calls (no POST, no catalog fetch) and hands no payload to the transport,
whatever the transport would have answered. -/
theorem C2_quantity_validated_before_network (api : String)
    (transport : TransportOutcome) (catalog : ModelsResponse)
    (message pm : String) (model : Option String)
    (models : Option (List String)) (q : Int) (h : q < 1 ∨ 4 < q) :
    chat api transport catalog message pm model models (some q) =
      ⟨.ok (.failure ("Quantity must be between 1 and 4 (got " ++
        toString q ++ ")")), 0, 0, none⟩ ∧
    isSubS "Quantity must be between 1 and 4"
      ("Quantity must be between 1 and 4 (got " ++ toString q ++ ")") =
        true := by
  constructor
  · unfold chat
    dsimp only
    rw [if_pos h]
  · have hsplit : ("Quantity must be between 1 and 4 (got " ++ toString q ++
        ")").data = "Quantity must be between 1 and 4".data ++
          (" (got ".data ++ ((toString q).data ++ ")".data)) := by
      have hlit : ("Quantity must be between 1 and 4 (got " : String) =
          "Quantity must be between 1 and 4" ++ " (got " := by decide
      rw [hlit]
      simp [String.data_append]
    unfold isSubS
    rw [hsplit]
    exact isSub_append_self _ _

theorem C2_witness :
    (((5 : Int) < 1 ∨ 4 < (5 : Int)) ∧
      chat "v1" (.connError "x") ⟨false, []⟩ "m" "balance" none none
        (some 5) = ⟨.ok (.failure "Quantity must be between 1 and 4 (got 5)"),
          0, 0, none⟩) :=
  ⟨by decide,
    (C2_quantity_validated_before_network "v1" (.connError "x") ⟨false, []⟩
      "m" "balance" none none 5 (by decide)).1.trans (by decide)⟩

/-- C3: when both a non-empty explicit `models` list and a single explicit
`model` are supplied, the payload carries the `models` list verbatim, for
every schema version, and its `model` and `smart_llm_selector` fields are
absent — in particular nothing in the payload refers to the single model. -/
theorem C3_models_list_wins (api_version message pricing_method c : String)
    (ms : List String) (hms : ms ≠ []) (quantity : Option Int) :
    buildPayload api_version message pricing_method (some c) (some ms)
      quantity = ⟨message, true, some ms, none, none⟩ := by
  cases ms with
  | nil => exact absurd rfl hms
  | cons a l =>
    unfold buildPayload
    rw [if_pos (by simp [optListTruthy])]
    rfl

theorem C3_witness :
    ((["a", "b"] : List String) ≠ [] ∧
      buildPayload "v1" "m" "balance" (some "c") (some ["a", "b"]) none =
        ⟨"m", true, some ["a", "b"], none, none⟩) :=
  ⟨by decide, C3_models_list_wins "v1" "m" "balance" "c" ["a", "b"]
    (by decide) none⟩

/-- C4: with a single explicit model set (truthy) and no explicit models
list, schema "v0" produces the scalar `model` field and schema "v1" produces
a one-element `models` list. -/
theorem C4_single_model_by_schema (message pricing_method m : String)
    (hm : m ≠ "") (models : Option (List String))
    (hms : optListTruthy models = false) (quantity : Option Int) :
    buildPayload "v0" message pricing_method (some m) models quantity =
      ⟨message, true, none, some m, none⟩ ∧
    buildPayload "v1" message pricing_method (some m) models quantity =
      ⟨message, true, some [m], none, none⟩ := by
  have hc1 : ∀ api : String, ¬((optListTruthy models &&
      decide ((models.getD []).length > 0)) = true) := by
    simp [hms]
  have hc2 : optStrTruthy (some m) = true := by
    have hemp : m.isEmpty = false := by
      cases h : m.isEmpty with
      | false => rfl
      | true => exact absurd ((String.isEmpty_iff m).mp h) hm
    show (!m.isEmpty) = true
    rw [hemp]
    rfl
  constructor
  · unfold buildPayload
    rw [if_neg (hc1 "v0"), if_pos hc2, if_neg (by decide)]
    rfl
  · unfold buildPayload
    rw [if_neg (hc1 "v1"), if_pos hc2, if_pos (by decide)]
    rfl

theorem C4_witness :
    (("x" : String) ≠ "" ∧ optListTruthy none = false ∧
      buildPayload "v0" "m" "balance" (some "x") none none =
        ⟨"m", true, none, some "x", none⟩ ∧
      buildPayload "v1" "m" "balance" (some "x") none none =
        ⟨"m", true, some ["x"], none, none⟩) :=
  ⟨by decide, rfl,
    C4_single_model_by_schema "m" "balance" "x" (by decide) none rfl none⟩

/-- C5: for a smart-selector request (no truthy `model` or `models`):
schema "v1" with quantity > 1 yields the object selector with that quantity;
schema "v1" with quantity absent or 1 yields the object selector with
quantity 1; schema "v0" yields the bare pricing-method string with the
quantity dropped. -/
theorem C5_smart_selector_shapes (message pricing_method : String)
    (model : Option String) (models : Option (List String))
    (hm : optStrTruthy model = false) (hms : optListTruthy models = false) :
    (∀ q : Int, 1 < q →
      buildPayload "v1" message pricing_method model models (some q) =
        ⟨message, true, none, none,
          some (Selector.obj q pricing_method)⟩) ∧
    buildPayload "v1" message pricing_method model models none =
      ⟨message, true, none, none, some (Selector.obj 1 pricing_method)⟩ ∧
    buildPayload "v1" message pricing_method model models (some 1) =
      ⟨message, true, none, none, some (Selector.obj 1 pricing_method)⟩ ∧
    ∀ q : Option Int,
      buildPayload "v0" message pricing_method model models q =
        ⟨message, true, none, none, some (Selector.strv pricing_method)⟩ := by
  have hc1 : ∀ api : String, ¬((optListTruthy models &&
      decide ((models.getD []).length > 0)) = true) := by
    simp [hms]
  have hc2 : ¬(optStrTruthy model = true) := by simp [hm]
  refine ⟨?_, ?_, ?_, ?_⟩
  · intro q hq
    have hqt : quantityTruthyGt1 (some q) = true := by
      simp only [quantityTruthyGt1, Bool.and_eq_true, Bool.not_eq_true',
        beq_eq_false_iff_ne, ne_eq, decide_eq_true_eq]
      exact ⟨by omega, hq⟩
    unfold buildPayload
    rw [if_neg (hc1 "v1"), if_neg hc2, if_pos (by simp [hqt])]
    rfl
  · unfold buildPayload
    rw [if_neg (hc1 "v1"), if_neg hc2, if_neg (by simp [quantityTruthyGt1]),
      if_pos (by decide)]
  · unfold buildPayload
    rw [if_neg (hc1 "v1"), if_neg hc2, if_neg (by decide), if_pos (by decide)]
  · intro q
    unfold buildPayload
    rw [if_neg (hc1 "v0"), if_neg hc2, if_neg (by simp), if_neg (by decide)]

theorem C5_witness :
    (optStrTruthy none = false ∧ optListTruthy none = false ∧
      buildPayload "v1" "m" "quality" none none (some 3) =
        ⟨"m", true, none, none, some (Selector.obj 3 "quality")⟩ ∧
      buildPayload "v0" "m" "quality" none none (some 3) =
        ⟨"m", true, none, none, some (Selector.strv "quality")⟩) :=
  ⟨rfl, rfl,
    (C5_smart_selector_shapes "m" "quality" none none rfl rfl).1 3 (by decide),
    (C5_smart_selector_shapes "m" "quality" none none rfl rfl).2.2.2 (some 3)⟩

/-- C6: every payload handed to the transport carries the message text, the
replace-failed-models flag set to true, and exactly one of the three
selection fields; the scalar `model` field appears only under schema "v0",
and the selector is the object form under "v1" and the bare string form
under "v0". -/
theorem C6_payload_invariant (api : String) (hapi : api = "v0" ∨ api = "v1")
    (t : TransportOutcome) (cat : ModelsResponse) (message pm : String)
    (model : Option String) (models : Option (List String)) (q : Option Int)
    (p : Payload)
    (hp : (chat api t cat message pm model models q).sentPayload = some p) :
    p.message = message ∧ p.replace_failed_models = true ∧ selCount p = 1 ∧
    (∀ m, p.model = some m → api = "v0") ∧
    ∀ s, p.smart_llm_selector = some s →
      (api = "v1" → ∃ qv pmv, s = Selector.obj qv pmv) ∧
      (api = "v0" → ∃ pmv, s = Selector.strv pmv) := by
  obtain rfl := chat_sentPayload_eq hp
  unfold buildPayload
  split_ifs with h1 h2 h3 h4 h5
  · exact ⟨rfl, rfl, rfl, by simp, by simp⟩
  · exact ⟨rfl, rfl, rfl, by simp, by simp⟩
  · refine ⟨rfl, rfl, rfl, ?_, by simp⟩
    intro _ _
    rcases hapi with h | h
    · exact h
    · exact absurd (by simp [h]) h3
  · refine ⟨rfl, rfl, rfl, by simp, ?_⟩
    intro s hs
    obtain rfl := Option.some.inj hs
    have hv1 : api = "v1" := by
      simp only [Bool.and_eq_true, beq_iff_eq] at h4
      exact h4.1
    exact ⟨fun _ => ⟨_, _, rfl⟩, fun h0 => absurd (h0 ▸ hv1) (by decide)⟩
  · refine ⟨rfl, rfl, rfl, by simp, ?_⟩
    intro s hs
    obtain rfl := Option.some.inj hs
    have hv1 : api = "v1" := by simpa using h5
    exact ⟨fun _ => ⟨_, _, rfl⟩, fun h0 => absurd (h0 ▸ hv1) (by decide)⟩
  · refine ⟨rfl, rfl, rfl, by simp, ?_⟩
    intro s hs
    obtain rfl := Option.some.inj hs
    refine ⟨fun hv => absurd (by simp [hv]) h5, fun _ => ⟨_, rfl⟩⟩

theorem C6_witness :
    (("v1" : String) = "v0" ∨ ("v1" : String) = "v1") ∧
    selCount ⟨"m", true, none, none, some (Selector.obj 1 "balance")⟩ = 1 :=
  ⟨Or.inr rfl,
    (C6_payload_invariant "v1" (Or.inr rfl) (.ok "B") ⟨false, []⟩ "m"
      "balance" none none none
      ⟨"m", true, none, none, some (Selector.obj 1 "balance")⟩
      (by decide)).2.2.1⟩

/-- C9: for every failed HTTP exchange whose status is not 422, or whose
error body cannot be decoded, or whose decoded error text does not contain
the model-not-found marker, `chat` returns the plain failure carrying the
exception message text, and performs no catalog fetch (hence no suggestion
lookup). -/
theorem C9_non_model_errors_plain_failure (api : String) (status : Nat)
    (errF : Option String) (msg : String) (catalog : ModelsResponse)
    (message pm : String) (model : Option String)
    (models : Option (List String)) (quantity : Option Int)
    (hq : quantityRejected quantity = false)
    (h : status ≠ 422 ∨ errF = none ∨
      ∀ e, errF = some e → isSubS marker e = false) :
    (chat api (.httpError status errF msg) catalog message pm model models
        quantity).result = .ok (.failure msg) ∧
    (chat api (.httpError status errF msg) catalog message pm model models
        quantity).catalogFetches = 0 := by
  have key : chatSend api (.httpError status errF msg) catalog message pm
      model models quantity = ⟨.ok (.failure msg), 1, 0,
        some (buildPayload api message pm model models quantity)⟩ := by
    unfold chatSend
    dsimp only
    by_cases h422 : status = 422
    · rcases h with hno | hnone | hmark
      · exact absurd h422 hno
      · subst hnone
        rw [if_pos h422]
      · cases errF with
        | none => rw [if_pos h422]
        | some e =>
          rw [if_pos h422]
          dsimp only
          rw [if_neg (by simp [hmark e rfl])]
    · rw [if_neg h422]
  rw [chat_eq_chatSend hq, key]
  exact ⟨rfl, rfl⟩

theorem C9_witness :
    quantityRejected none = false ∧
    isSubS marker "Invalid API key" = false ∧
    (chat "v1" (.httpError 422 (some "Invalid API key") "422 Client Error")
      ⟨false, []⟩ "m").result = .ok (.failure "422 Client Error") ∧
    (chat "v1" (.httpError 422 (some "Invalid API key") "422 Client Error")
      ⟨false, []⟩ "m").catalogFetches = 0 := by
  have h := C9_non_model_errors_plain_failure "v1" 422
    (some "Invalid API key") "422 Client Error" ⟨false, []⟩ "m" "balance"
    none none none rfl
    (Or.inr (Or.inr (fun e he =>
      (Option.some.inj he) ▸ (by decide : isSubS marker "Invalid API key" = false))))
  exact ⟨rfl, by decide, h.1, h.2⟩

/-- C10: when both a truthy single `model` argument and a `models` list of
two or more identifiers are supplied and the exchange fails as
model-not-found, the classifier attributes `requested_model` to the single
`model` argument, even though the payload that was actually sent carried the
`models` list and contained no `model` field. -/
theorem C10_classifier_prefers_unsent_model (api message pm m : String)
    (hm : m ≠ "") (ms : List String) (hms : 2 ≤ ms.length) (err msg : String)
    (hmark : isSubS marker err = true) (catalog : ModelsResponse)
    (quantity : Option Int) (hq : quantityRejected quantity = false) :
    (chat api (.httpError 422 (some err) msg) catalog message pm (some m)
        (some ms) quantity).sentPayload =
      some ⟨message, true, some ms, none, none⟩ ∧
    (chat api (.httpError 422 (some err) msg) catalog message pm (some m)
        (some ms) quantity).result =
      .ok (.modelNotFound err m (findSimilarModels catalog m 5)) := by
  have hpay : buildPayload api message pm (some m) (some ms) quantity =
      ⟨message, true, some ms, none, none⟩ := by
    cases ms with
    | nil => simp at hms
    | cons a l =>
      unfold buildPayload
      rw [if_pos (by simp [optListTruthy])]
      rfl
  constructor
  · rw [chat_eq_chatSend hq, chatSend_sentPayload, hpay]
  · rw [chat_eq_chatSend hq]
    unfold chatSend
    dsimp only
    rw [if_pos rfl]
    rw [if_pos hmark]
    have hattr : attributedModel (some m) (some ms) err = some m := by
      unfold attributedModel
      rw [if_pos (optStrTruthy_some_of_ne hm)]
    rw [hattr]
    dsimp only
    rw [if_neg hm]

theorem C10_witness :
    (("c" : String) ≠ "" ∧ 2 ≤ (["a", "b"] : List String).length ∧
      isSubS marker "Model not found: x" = true ∧
      quantityRejected none = false) ∧
    (chat "v1" (.httpError 422 (some "Model not found: x") "e") ⟨false, []⟩
        "m" "balance" (some "c") (some ["a", "b"]) none).sentPayload =
      some ⟨"m", true, some ["a", "b"], none, none⟩ ∧
    (chat "v1" (.httpError 422 (some "Model not found: x") "e") ⟨false, []⟩
        "m" "balance" (some "c") (some ["a", "b"]) none).result =
      .ok (.modelNotFound "Model not found: x" "c"
        (findSimilarModels ⟨false, []⟩ "c" 5)) :=
  ⟨⟨by decide, by decide, by decide, rfl⟩,
    C10_classifier_prefers_unsent_model "v1" "m" "balance" "c" (by decide)
      ["a", "b"] (by decide) "Model not found: x" "e" (by decide) ⟨false, []⟩
      none rfl⟩

/-- The scored candidate list of the suggestion engine's similarity pass. -/
def suggScored (chatList : List ModelEntry) (name : String) :
    List (Score × String) :=
  closeScored name (chatList.map ModelEntry.model) cutoffScore

/-- Scored candidates after the descending stable sort of `nlargest`. -/
def suggSorted (chatList : List ModelEntry) (name : String) :
    List (Score × String) :=
  List.insertionSort scoreGe (suggScored chatList name)

/-- The close-match identifiers (the value of `get_close_matches`). -/
def suggClose (chatList : List ModelEntry) (name : String) (maxS : Nat) :
    List String :=
  ((suggSorted chatList name).take maxS).map (fun p => p.2)

/-- The entries emitted by the similarity phase of the merge. -/
def suggPhase1 (chatList : List ModelEntry) (name : String) (maxS : Nat) :
    List ModelEntry :=
  (mergeClose chatList (suggClose chatList name maxS) [] []).1

theorem findSimilarModels_eq (chatList : List ModelEntry) (name : String)
    (maxS : Nat) :
    findSimilarModels ⟨true, chatList⟩ name maxS =
      (mergeKeyword maxS (keywordMatches chatList name)
        (mergeClose chatList (suggClose chatList name maxS) [] []).1
        (mergeClose chatList (suggClose chatList name maxS) [] []).2).1.take
          maxS := by
  cases chatList with
  | nil =>
    have hclose : suggClose [] name maxS = [] := by
      simp [suggClose, suggSorted, suggScored, closeScored]
    rw [hclose]
    simp [findSimilarModels, keywordMatches, mergeClose, mergeKeyword]
  | cons a l =>
    simp only [findSimilarModels]
    rw [if_neg (by simp), if_neg (by simp)]
    rfl

/-- C8 counterexample: with identifiers `["bad-a", ""]` and error text
`"Model not found: zzz"`, the first identifier in list order that appears as
a literal substring of the error text is `""` (the empty string is a
substring of everything, as in Python), yet the code attributes the failure
to `"bad-a"`: the scan's result is discarded by the truthiness test and the
fallback to the first identifier fires.  This refutes the claim as stated. -/
theorem C8_counterexample :
    ((["bad-a", ""] : List String).find?
        (fun x => isSubS x "Model not found: zzz") = some "") ∧
    (chat "v1" (.httpError 422 (some "Model not found: zzz") "e") ⟨false, []⟩
        "m" "balance" none (some ["bad-a", ""]) none).result =
      .ok (.modelNotFound "Model not found: zzz" "bad-a"
        (findSimilarModels ⟨false, []⟩ "bad-a" 5)) := by
  decide

/-- C8 (amended): under an explicit list of two or more identifiers (and no
single model argument), the scan stops at the first identifier that appears
as a literal substring of the error text; if that identifier is non-empty it
becomes `requested_model`; if the scan yields the empty identifier or no
identifier at all, `requested_model` falls back to the first identifier of
the list — and when that fallback is itself empty, the failure is reported
as a plain failure without model attribution. -/
theorem C8_attribution_amended (api message pm : String) (ms : List String)
    (hms : 2 ≤ ms.length) (err msg : String)
    (hmark : isSubS marker err = true) (catalog : ModelsResponse)
    (quantity : Option Int) (hq : quantityRejected quantity = false) :
    (∀ m, ms.find? (fun x => isSubS x err) = some m → m ≠ "" →
      (chat api (.httpError 422 (some err) msg) catalog message pm none
          (some ms) quantity).result =
        .ok (.modelNotFound err m (findSimilarModels catalog m 5))) ∧
    ((ms.find? (fun x => isSubS x err) = some "" ∨
        ms.find? (fun x => isSubS x err) = none) →
      (ms.headD "" ≠ "" →
        (chat api (.httpError 422 (some err) msg) catalog message pm none
            (some ms) quantity).result =
          .ok (.modelNotFound err (ms.headD "")
            (findSimilarModels catalog (ms.headD "") 5))) ∧
      (ms.headD "" = "" →
        (chat api (.httpError 422 (some err) msg) catalog message pm none
            (some ms) quantity).result = .ok (.failure msg))) := by
  have hattr : attributedModel none (some ms) err =
      match ms.find? (fun x => isSubS x err) with
      | some m => if m = "" then some (ms.headD "") else some m
      | none => some (ms.headD "") := by
    unfold attributedModel
    rw [if_neg (by simp [optStrTruthy])]
    dsimp only
    rw [if_neg (by omega), if_pos (by omega)]
  constructor
  · intro m hfind hm
    rw [chat_eq_chatSend hq]
    unfold chatSend
    dsimp only
    rw [if_pos rfl, if_pos hmark, hattr, hfind]
    dsimp only
    rw [if_neg hm]
    dsimp only
    rw [if_neg hm]
  · intro hfind
    constructor
    · intro hhd
      rw [chat_eq_chatSend hq]
      unfold chatSend
      dsimp only
      rw [if_pos rfl, if_pos hmark, hattr]
      rcases hfind with hf | hf
      · rw [hf]
        dsimp only
        rw [if_pos rfl]
        dsimp only
        rw [if_neg hhd]
      · rw [hf]
        dsimp only
        rw [if_neg hhd]
    · intro hhd
      rw [chat_eq_chatSend hq]
      unfold chatSend
      dsimp only
      rw [if_pos rfl, if_pos hmark, hattr]
      rcases hfind with hf | hf
      · rw [hf]
        dsimp only
        rw [if_pos rfl]
        dsimp only
        rw [if_pos hhd]
      · rw [hf]
        dsimp only
        rw [if_pos hhd]

theorem C8_witness :
    (2 ≤ (["openai/gpt-4", "invalid-model-2"] : List String).length ∧
      isSubS marker "Model not found: invalid-model-2" = true ∧
      (["openai/gpt-4", "invalid-model-2"] : List String).find?
        (fun x => isSubS x "Model not found: invalid-model-2") =
          some "invalid-model-2") ∧
    (chat "v1"
        (.httpError 422 (some "Model not found: invalid-model-2") "e")
        ⟨false, []⟩ "m" "balance" none
        (some ["openai/gpt-4", "invalid-model-2"]) none).result =
      .ok (.modelNotFound "Model not found: invalid-model-2"
        "invalid-model-2"
        (findSimilarModels ⟨false, []⟩ "invalid-model-2" 5)) :=
  ⟨⟨by decide, by decide, by decide⟩,
    (C8_attribution_amended "v1" "m" "balance"
      ["openai/gpt-4", "invalid-model-2"] (by decide)
      "Model not found: invalid-model-2" "e" (by decide) ⟨false, []⟩ none
      rfl).1 "invalid-model-2" (by decide) (by decide)⟩

/-- C7 counterexample: catalog `["ab", "ac"]` (in that order), query `"a"`.
Both identifiers have the same similarity ratio to the query, so the claim's
tie-break by catalog order demands `"ab"` before `"ac"`; the code emits
`"ac"` before `"ab"`, because `heapq.nlargest` compares the whole
`(ratio, identifier)` tuples and therefore breaks ratio ties by descending
identifier order.  This refutes the claim as stated. -/
theorem C7_counterexample :
    (ratioVal "ab".data "a".data).eqv (ratioVal "ac".data "a".data) ∧
    findSimilarModels ⟨true, [⟨"ab", "Ab"⟩, ⟨"ac", "Ac"⟩]⟩ "a" 5 =
      [⟨"ac", "Ac"⟩, ⟨"ab", "Ab"⟩] := by
  decide

/-- C7 (amended): for every catalog and query, the suggestion list is the
take-`max_suggestions` prefix of: first the similarity-phase entries — the
close matches (each with ratio ≥ 0.3) ordered by descending similarity with
ties broken by descending identifier order (the tuple order of `nlargest`),
deduplicated, each resolved to the first catalog entry bearing its
identifier — followed by keyword (case-insensitive substring) matches not
already emitted, in catalog order; no identifier appears twice, the result
never exceeds `max_suggestions` entries, and when it is shorter than
`max_suggestions` every keyword match is represented. -/
theorem C7_suggestion_merge_amended (chatList : List ModelEntry)
    (name : String) (maxS : Nat) :
    List.Sorted scoreGe (suggSorted chatList name) ∧
    (∀ p ∈ suggScored chatList name,
      cutoffScore.le p.1 ∧ p.1 = ratioVal p.2.data name.data) ∧
    ((suggPhase1 chatList name maxS).map ModelEntry.model).Sublist
      (suggClose chatList name maxS) ∧
    (∀ id ∈ suggClose chatList name maxS,
      id ∈ (suggPhase1 chatList name maxS).map ModelEntry.model) ∧
    (∀ e ∈ suggPhase1 chatList name maxS,
      chatList.find? (fun x => x.model == e.model) = some e) ∧
    (∃ r2 : List ModelEntry,
      findSimilarModels ⟨true, chatList⟩ name maxS =
        (suggPhase1 chatList name maxS ++ r2).take maxS ∧
      r2.Sublist (keywordMatches chatList name)) ∧
    ((findSimilarModels ⟨true, chatList⟩ name maxS).map
      ModelEntry.model).Nodup ∧
    (findSimilarModels ⟨true, chatList⟩ name maxS).length ≤ maxS ∧
    ((findSimilarModels ⟨true, chatList⟩ name maxS).length < maxS →
      ∀ e ∈ keywordMatches chatList name,
        e.model ∈ (findSimilarModels ⟨true, chatList⟩ name maxS).map
          ModelEntry.model) := by
  obtain ⟨t, ht1, ht2, ht3⟩ :=
    mergeClose_shape chatList (suggClose chatList name maxS) [] []
  have hph1 : suggPhase1 chatList name maxS = t := by
    rw [suggPhase1, ht1, List.nil_append]
  have hfind : ∀ id ∈ suggClose chatList name maxS,
      (chatList.find? (fun x => x.model == id)).isSome = true :=
    fun id hid => findInCatalog_isSome (close_mem_poss id hid)
  have hnd1 := mergeClose_nodup chatList (suggClose chatList name maxS) [] []
    (by simp) (by simp)
  obtain ⟨r2, hr2, hr2sub⟩ := mergeKeyword_shape maxS
    (keywordMatches chatList name)
    (mergeClose chatList (suggClose chatList name maxS) [] []).1
    (mergeClose chatList (suggClose chatList name maxS) [] []).2
  have hr : findSimilarModels ⟨true, chatList⟩ name maxS =
      (suggPhase1 chatList name maxS ++ r2).take maxS := by
    rw [findSimilarModels_eq, hr2, suggPhase1]
  have hnd2 := mergeKeyword_nodup maxS (keywordMatches chatList name)
    (mergeClose chatList (suggClose chatList name maxS) [] []).1
    (mergeClose chatList (suggClose chatList name maxS) [] []).2
    hnd1.1 hnd1.2
  refine ⟨List.sorted_insertionSort scoreGe (suggScored chatList name),
    ?_, ?_, ?_, ?_, ⟨r2, hr, hr2sub⟩, ?_, ?_, ?_⟩
  · intro p hp
    obtain ⟨_, hle, heq⟩ := mem_closeScored hp
    refine ⟨?_, heq⟩
    rw [heq]
    exact hle
  · rw [hph1]
    exact ht2
  · intro id hid
    have hseen := mergeClose_seen_complete chatList
      (suggClose chatList name maxS) [] [] hfind id hid
    exact mergeClose_seen_in_res chatList (suggClose chatList name maxS)
      [] [] (by simp) id hseen
  · intro e he
    exact ht3 e (hph1 ▸ he)
  · rw [findSimilarModels_eq, List.map_take]
    exact List.Nodup.sublist (List.take_sublist _ _) hnd2.1
  · rw [findSimilarModels_eq]
    exact List.length_take_le _ _
  · intro hlen
    rw [findSimilarModels_eq] at hlen
    rw [List.length_take] at hlen
    have houtlen : (mergeKeyword maxS (keywordMatches chatList name)
        (mergeClose chatList (suggClose chatList name maxS) [] []).1
        (mergeClose chatList (suggClose chatList name maxS) [] []).2).1.length
          < maxS := by omega
    have htake := List.take_of_length_le (Nat.le_of_lt houtlen)
    intro e he
    have hseen2 := mergeKeyword_complete maxS (keywordMatches chatList name)
      (mergeClose chatList (suggClose chatList name maxS) [] []).1
      (mergeClose chatList (suggClose chatList name maxS) [] []).2
      houtlen e he
    have hpre : ∀ s ∈ (mergeClose chatList (suggClose chatList name maxS)
        [] []).2, s ∈ ((mergeClose chatList (suggClose chatList name maxS)
          [] []).1.map ModelEntry.model) :=
      mergeClose_seen_in_res chatList (suggClose chatList name maxS) [] []
        (by simp)
    have hin := mergeKeyword_seen_in_res maxS (keywordMatches chatList name)
      (mergeClose chatList (suggClose chatList name maxS) [] []).1
      (mergeClose chatList (suggClose chatList name maxS) [] []).2
      hpre e.model hseen2
    rw [findSimilarModels_eq, htake]
    exact hin

end Straico
